import Mathlib

/-!
Shallow embedding of the kubernetes-rs client core: the URL path/query
builder, the request/response executor, the watch stream decoder, the
pagination iterator, the TypeMeta validator (src/api/mod.rs), and the
newline frame splitter used by watch streams (src/client/mod.rs).
Byte strings are modelled as `List Nat`; serde decoding of JSON payloads is
abstracted as functions returning `Except String` (the `String` being the
serde error message).
-/

namespace KubernetesRs

/-- Modelled from the spec: `Status` lives in `api/meta/v1`, which is not
among the shown sources; per the spec it is the structured server error
payload with code, message and reason fields (extra fields elided: the
client treats it as opaque data). -/
structure Status where
  code : Int
  message : String
  reason : String
deriving DecidableEq

/-- The error channel of the client, collapsing the `failure::Error` values
raised in `src/client/mod.rs`: `Status.into()` (the structured server
error), `HttpStatusError`, `RequiredAttributeError`, the `format_err!`
raised for non-hierarchical base URLs, and decode failures tagged with
their `with_context` message. -/
inductive Err where
  | apiStatus (status : Status)
  | httpStatus (status : Nat)
  | requiredAttribute (attr : String)
  | urlError (msg : String)
  | decode (msg : String)
deriving DecidableEq

/-- `GroupVersionResource` as consumed by `Client::url` (fields `group`,
`version`, `resource`). -/
structure GroupVersionResource where
  group : String
  version : String
  resource : String
deriving DecidableEq

/-- `GetOptions` from src/client/mod.rs lines 125-130. -/
structure GetOptions where
  pretty : Bool
deriving DecidableEq

/-- The `Default::default()` value of `GetOptions`. -/
def defaultGetOptions : GetOptions := { pretty := false }

/-- `ListOptions` from src/client/mod.rs lines 132-153.  The Rust field
`continu` is serialized under the wire name `continue`. -/
structure ListOptions where
  resourceVersion : String
  timeoutSeconds : Nat
  watch : Bool
  pretty : Bool
  fieldSelector : String
  labelSelector : String
  includeUninitialized : Bool
  limit : Nat
  continu : String
deriving DecidableEq

/-- The `Default::default()` value of `ListOptions`. -/
def defaultListOptions : ListOptions :=
  { resourceVersion := "", timeoutSeconds := 0, watch := false, pretty := false,
    fieldSelector := "", labelSelector := "", includeUninitialized := false,
    limit := 0, continu := "" }

/-- An upper-case hexadecimal digit, as produced by form-urlencoding. -/
def hexDigit (n : Nat) : Char :=
  Char.ofNat (if n < 10 then 48 + n else 55 + n)

/-- UTF-8 encoding of one character, byte values as `Nat`. -/
def utf8Bytes (c : Char) : List Nat :=
  let n := c.toNat
  if n < 128 then [n]
  else if n < 2048 then [192 + n / 64, 128 + n % 64]
  else if n < 65536 then [224 + n / 4096, 128 + n / 64 % 64, 128 + n % 64]
  else [240 + n / 262144, 128 + n / 4096 % 64, 128 + n / 64 % 64, 128 + n % 64]

/-- One byte of form-urlencoded output: alphanumerics and `*-._` pass
through, space becomes `+`, anything else is percent-escaped.  This is the
byte-level rule applied by `serde_urlencoded::to_string`. -/
def formEncodeByte (b : Nat) : List Char :=
  if (48 ≤ b ∧ b ≤ 57) ∨ (65 ≤ b ∧ b ≤ 90) ∨ (97 ≤ b ∧ b ≤ 122)
      ∨ b = 42 ∨ b = 45 ∨ b = 46 ∨ b = 95 then [Char.ofNat b]
  else if b = 32 then ['+']
  else ['%', hexDigit (b / 16), hexDigit (b % 16)]

/-- Form-urlencoding of one string. -/
def formUrlencode (s : String) : String :=
  String.mk (((s.data.map utf8Bytes).flatten.map formEncodeByte).flatten)

/-- Render a key/value pair list the way `serde_urlencoded::to_string`
does: `k=v` joined by `&`. -/
def renderQuery (ps : List (String × String)) : String :=
  String.intercalate "&" (ps.map (fun p => formUrlencode p.1 ++ "=" ++ formUrlencode p.2))

/-- Rust bool `Display`, used for serialized boolean query values. -/
def boolStr (b : Bool) : String := if b then "true" else "false"

/-- The query pairs serde emits for a `GetOptions`: every field is guarded
by `skip_serializing_if = "is_default"`. -/
def GetOptions.queryPairs (o : GetOptions) : List (String × String) :=
  if o.pretty = false then [] else [("pretty", boolStr o.pretty)]

/-- The query pairs serde emits for a `ListOptions`, in field declaration
order, camelCased, each guarded by `skip_serializing_if = "is_default"`,
with `continu` renamed to `continue`. -/
def ListOptions.queryPairs (o : ListOptions) : List (String × String) :=
  (if o.resourceVersion = "" then [] else [("resourceVersion", o.resourceVersion)]) ++
  (if o.timeoutSeconds = 0 then [] else [("timeoutSeconds", toString o.timeoutSeconds)]) ++
  (if o.watch = false then [] else [("watch", boolStr o.watch)]) ++
  (if o.pretty = false then [] else [("pretty", boolStr o.pretty)]) ++
  (if o.fieldSelector = "" then [] else [("fieldSelector", o.fieldSelector)]) ++
  (if o.labelSelector = "" then [] else [("labelSelector", o.labelSelector)]) ++
  (if o.includeUninitialized = false then [] else [("includeUninitialized", boolStr o.includeUninitialized)]) ++
  (if o.limit = 0 then [] else [("limit", toString o.limit)]) ++
  (if o.continu = "" then [] else [("continue", o.continu)])

/-- How many pairs of a query pair list carry the given key. -/
def countKey (k : String) (ps : List (String × String)) : Nat :=
  (ps.filter (fun p => p.1 == k)).length

/-- A parsed URL, as manipulated by `Client::url` via the `url` crate:
scheme/authority are opaque here; `cannotBeABase` models
`path_segments_mut()` returning `Err` for non-hierarchical schemes;
`pathSegments` is the segment list and `query` the optional raw query
string. -/
structure Url where
  scheme : String
  host : String
  cannotBeABase : Bool
  pathSegments : List String
  query : Option String
deriving DecidableEq

/-- Path segment joining as the `url` crate serializes it: segments joined
by `/`. -/
def joinSegs : List String → String
  | [] => ""
  | [s] => s
  | s :: rest => s ++ "/" ++ joinSegs rest

/-- The serialized path of a URL: a leading `/` then the joined segments. -/
def Url.path (u : Url) : String := "/" ++ joinSegs u.pathSegments

/-- The optional namespace segments of `Client::url`
(`namespace.map(|ns| path.extend(&["namespaces", ns]))`). -/
def nsSegs : Option String → List String
  | some n => ["namespaces", n]
  | none => []

/-- The optional trailing name segment of `Client::url`
(`name.map(|n| path.push(n))`). -/
def nameSegs : Option String → List String
  | some n => [n]
  | none => []

/-- The path segments pushed by `Client::url` (src/client/mod.rs lines
280-293) after `path.clear()`: root `api` when the group is empty and the
version is `v1`, else root `apis`; then the group when non-empty, the
version, the namespace segments, the resource, and the name segment. -/
def buildSegments (gvr : GroupVersionResource) (ns nm : Option String) : List String :=
  (if gvr.group = "" ∧ gvr.version = "v1" then ["api"] else ["apis"]) ++
  (if gvr.group = "" then [] else [gvr.group]) ++
  [gvr.version] ++
  nsSegs ns ++
  [gvr.resource] ++
  nameSegs nm

/-- `Client::url` specialised to `GetOptions`: fails with the
`format_err!("URL scheme does not support paths")` error on a
non-hierarchical base, clears the base path, pushes the computed segments,
and sets the query only when the options differ from their default. -/
def clientUrlGet (server : Url) (gvr : GroupVersionResource) (ns nm : Option String)
    (opts : GetOptions) : Except Err Url :=
  if server.cannotBeABase then Except.error (Err.urlError "URL scheme does not support paths")
  else Except.ok
    { server with
      pathSegments := buildSegments gvr ns nm,
      query := if opts = defaultGetOptions then server.query
               else some (renderQuery opts.queryPairs) }

/-- `Client::url` specialised to `ListOptions`. -/
def clientUrlList (server : Url) (gvr : GroupVersionResource) (ns nm : Option String)
    (opts : ListOptions) : Except Err Url :=
  if server.cannotBeABase then Except.error (Err.urlError "URL scheme does not support paths")
  else Except.ok
    { server with
      pathSegments := buildSegments gvr ns nm,
      query := if opts = defaultListOptions then server.query
               else some (renderQuery opts.queryPairs) }

/-- `hyper::StatusCode::is_success`: the 2xx range. -/
def isSuccessStatus (s : Nat) : Bool := 200 ≤ s && s < 300

/-- The response classification of `do_request` (src/client/mod.rs lines
185-199), applied to the fully buffered body: on a non-2xx status the body
is decoded as `Status` — success yields the structured error, failure the
plain `HttpStatusError`; on 2xx the body is decoded as the expected type,
a failure being wrapped with the "Unable to parse response body" context. -/
def handleResponse {T : Type} (decodeStatus : List Nat → Except String Status)
    (decodeBody : List Nat → Except String T) (httpstatus : Nat) (body : List Nat) :
    Except Err T :=
  if ¬ isSuccessStatus httpstatus then
    match decodeStatus body with
    | Except.ok s => Except.error (Err.apiStatus s)
    | Except.error _ => Except.error (Err.httpStatus httpstatus)
  else
    match decodeBody body with
    | Except.ok o => Except.ok o
    | Except.error e => Except.error (Err.decode ("Unable to parse response body: " ++ e))

/-- Modelled from the spec: the frame splitter of the `resplit` module
(whose source file is not among the shown sources).  Splitting one byte
buffer: the records strictly before each delimiter, delimiter excluded,
plus the trailing bytes after the last delimiter. -/
def splitFrames {α : Type} (isDelim : α → Bool) : List α → List (List α) × List α
  | [] => ([], [])
  | x :: xs =>
    let r := splitFrames isDelim xs
    if isDelim x then ([] :: r.1, r.2)
    else
      match r.1 with
      | rec :: recs => ((x :: rec) :: recs, r.2)
      | [] => ([], x :: r.2)

/-- Modelled from the spec: feeding successive chunks to the splitter.
Each chunk is appended to the retained buffer; all completed records are
emitted and the trailing partial record is retained. -/
def feedChunks {α : Type} (isDelim : α → Bool) :
    List (List α) × List α → List (List α) → List (List α) × List α
  | st, [] => st
  | st, c :: cs =>
    let r := splitFrames isDelim (st.2 ++ c)
    feedChunks isDelim (st.1 ++ r.1, r.2) cs

/-- Modelled from the spec: the records emitted and buffer retained after
feeding a whole chunk sequence from the empty initial state. -/
def runChunks {α : Type} (isDelim : α → Bool) (cs : List (List α)) :
    List (List α) × List α :=
  feedChunks isDelim ([], []) cs

/-- Modelled from the spec: the complete record sequence of a finite
stream, the non-empty trailing buffer being emitted as a final record at
end of stream (the behaviour the spec's own record-sequence examples
exhibit). -/
def allRecords {α : Type} (isDelim : α → Bool) (cs : List (List α)) : List (List α) :=
  let r := runChunks isDelim cs
  r.1 ++ (if r.2.isEmpty then [] else [r.2])

/-- The newline delimiter predicate passed to `resplit::new` by `do_watch`
(`|&c| c == b'\n'`). -/
def newlineDelim (b : Nat) : Bool := b == 10

/-- The per-record decoding step of `do_watch` (src/client/mod.rs lines
250-254): each line is decoded independently, a serde failure being
wrapped with the "Unable to parse watch line" context. -/
def decodeWatchLine {T : Type} (parse : List Nat → Except String T) (line : List Nat) :
    Except Err T :=
  match parse line with
  | Except.ok t => Except.ok t
  | Except.error e => Except.error (Err.decode ("Unable to parse watch line : " ++ e))

/-- A fallible per-item stream transformation (the `and_then` combinator on
the record stream), as consumed: items are emitted until the first failing
item, whose error terminates the sequence. -/
def streamAndThen {A B : Type} (f : A → Except Err B) : List A → List B × Option Err
  | [] => ([], none)
  | a :: rest =>
    match f a with
    | Except.ok b =>
      let r := streamAndThen f rest
      (b :: r.1, r.2)
    | Except.error e => ([], some e)

/-- The 2xx branch of `do_watch`: the records emitted by the frame
splitter are decoded one by one; the emitted event sequence and its
optional terminal error. -/
def watchEvents {T : Type} (parse : List Nat → Except String T)
    (records : List (List Nat)) : List T × Option Err :=
  streamAndThen (decodeWatchLine parse) records

/-- Modelled from the spec: the `List` capability (`super::List`, not among
the shown sources) exposes a page's ordered items and the optional
`continue` token of its `listmeta()`. -/
structure PageL (T : Type) where
  items : List T
  continu : Option String

/-- One continuation step of `Client::iter` (src/client/mod.rs lines
430-444): when the fetched page carries a continuation token, the options'
`continu` field is set to it, the URL query is rebuilt from the full
options by `serde_urlencoded`, and the unfold continues; when it is
absent, the unfold state becomes `None`. -/
def iterStep {T : Type} (opts : ListOptions) (url : Url) (page : PageL T) :
    Option (Url × ListOptions) :=
  match page.continu with
  | some c =>
    let nextOpts := { opts with continu := c }
    some ({ url with query := some (renderQuery nextOpts.queryPairs) }, nextOpts)
  | none => none

/-- The page stream of `Client::iter` as an explicit unfold: `server k` is
the list object the server returns to the k-th issued request; `fuel`
bounds the number of observed steps (the Rust stream is demand-driven and
potentially unbounded).  Each produced page corresponds to exactly one
issued request. -/
def iterPages {T : Type} (server : Nat → PageL T) (k : Nat) :
    Nat → Option (Url × ListOptions) → List (PageL T)
  | _, none => []
  | 0, some _ => []
  | fuel + 1, some (url, opts) =>
    let page := server k
    page :: iterPages server (k + 1) fuel (iterStep opts url page)

/-- The flattened item sequence of `Client::iter`: each page's items in
server order, one page at a time. -/
def iterItems {T : Type} (server : Nat → PageL T) (k : Nat) (fuel : Nat)
    (st : Option (Url × ListOptions)) : List T :=
  ((iterPages server k fuel st).map PageL.items).flatten

/-- The runtime view of the `apiVersion`/`kind` envelope
(`TypeMetaRuntime`, src/api/mod.rs lines 44-49). -/
structure TypeMetaRuntime where
  apiVersion : Option String
  kind : Option String
deriving DecidableEq

/-- The serde error outcomes produced by `TypeMetaStruct::deserialize`:
`missing_field` naming a field, or `invalid_value` carrying the found
`apiVersion/kind` pair and the expected one (the `Expected`
implementation renders `T::api_version()/T::kind()`). -/
inductive DeError where
  | missingField (name : String)
  | invalidValue (found : String) (expected : String)
deriving DecidableEq

/-- `TypeMetaStruct::<T>::deserialize` (src/api/mod.rs lines 63-87) with
`T`'s constants passed explicitly: both fields present and matching or
both absent is valid; one absent names the missing field; both present but
mismatched reports the found pair against the expected pair. -/
def typeMetaDeserialize (expApiVersion expKind : String) (t : TypeMetaRuntime) :
    Except DeError Unit :=
  match t.apiVersion, t.kind with
  | some a, some k =>
    if a = expApiVersion ∧ k = expKind then Except.ok ()
    else Except.error (DeError.invalidValue (a ++ "/" ++ k) (expApiVersion ++ "/" ++ expKind))
  | none, none => Except.ok ()
  | some _, none => Except.error (DeError.missingField "kind")
  | none, some _ => Except.error (DeError.missingField "apiVersion")

/-- The metadata the `Metadata` capability exposes on a submitted object:
an optional namespace and an optional name (spec data model; the trait
itself is not among the shown sources). -/
structure ObjectMeta where
  namespace' : Option String
  name : Option String
deriving DecidableEq

/-- An HTTP request as built by the client: method, URL, optional
content-type header and optional body bytes. -/
structure RequestModel where
  method : String
  url : Url
  contentType : Option String
  body : Option (List Nat)
deriving DecidableEq

/-- `Client::put` request construction (src/client/mod.rs lines 333-351):
the object's name is required first (`required_attr("name")` otherwise),
then the object is serialized and a POST request with a JSON content-type
is built against the URL containing namespace and name. -/
def clientPut (server : Url) (gvr : GroupVersionResource) (meta : ObjectMeta)
    (json : List Nat) (opts : GetOptions) : Except Err RequestModel :=
  match meta.name with
  | none => Except.error (Err.requiredAttribute "name")
  | some n =>
    match clientUrlGet server gvr meta.namespace' (some n) opts with
    | Except.error e => Except.error e
    | Except.ok url =>
      Except.ok { method := "POST", url := url,
                  contentType := some "application/json", body := some json }

/-- How many network requests `do_request` issues for a given request
construction outcome: `future::result(req).and_then(|req| client.request(req))`
issues none when the construction already failed, one otherwise. -/
def requestsIssued (req : Except Err RequestModel) : Nat :=
  match req with
  | Except.error _ => 0
  | Except.ok _ => 1

/-- A concrete hierarchical base server URL (the one the source's own
`test_url` uses), handy for witnesses. -/
def sampleServer : Url :=
  { scheme := "https", host := "192.168.42.147:8443", cannotBeABase := false,
    pathSegments := [], query := none }

/-- The request `Client::put` builds for a sample pod object, used to
instantiate theorems at a concrete input. -/
def putReq0 : RequestModel :=
  { method := "POST",
    url := { sampleServer with
             pathSegments := buildSegments ⟨"", "v1", "pods"⟩ (some "myns") (some "myname") },
    contentType := some "application/json",
    body := some [123] }

/-- A two-page server: the first request is answered with a page carrying a
continuation token, the second with a final page. -/
def pageServer0 : Nat → PageL Nat := fun k =>
  if k = 0 then { items := [1, 2], continu := some "t" }
  else { items := [3], continu := none }

/-!
Helper lemmas, then one theorem per claim.
-/

theorem splitFrames_append {α : Type} (d : α → Bool) (a b : List α) :
    splitFrames d (a ++ b) =
      ((splitFrames d a).1 ++ (splitFrames d ((splitFrames d a).2 ++ b)).1,
        (splitFrames d ((splitFrames d a).2 ++ b)).2) := by
  induction a with
  | nil => simp [splitFrames]
  | cons x xs ih =>
    simp only [List.cons_append, splitFrames, List.append_eq]
    rw [ih]
    by_cases hx : d x
    · simp [hx]
    · cases hA : (splitFrames d xs).1 with
      | nil =>
        simp only [hx, Bool.false_eq_true, if_false, hA, List.nil_append]
        simp only [List.cons_append, splitFrames, hx, Bool.false_eq_true, if_false]
        cases hB : (splitFrames d ((splitFrames d xs).2 ++ b)).1 <;> simp [hB]
      | cons rec recs => simp [hx, hA]

theorem splitFrames_buffer_noDelim {α : Type} (d : α → Bool) (l : List α) :
    ∀ x ∈ (splitFrames d l).2, d x = false := by
  induction l with
  | nil => simp [splitFrames]
  | cons x xs ih =>
    by_cases hx : d x
    · simpa [splitFrames, hx] using ih
    · cases hA : (splitFrames d xs).1 with
      | nil =>
        simp only [splitFrames, hx, Bool.false_eq_true, if_false, hA]
        intro y hy
        rcases List.mem_cons.mp hy with h | h
        · subst h; exact eq_false_of_ne_true hx
        · exact ih y h
      | cons rec recs => simpa [splitFrames, hx, hA] using ih

theorem splitFrames_of_noDelim {α : Type} (d : α → Bool) (l : List α)
    (h : ∀ x ∈ l, d x = false) : splitFrames d l = ([], l) := by
  induction l with
  | nil => rfl
  | cons x xs ih =>
    have hx : d x = false := h x (by simp)
    have ihh := ih (fun y hy => h y (by simp [hy]))
    simp [splitFrames, hx, ihh]

theorem feedChunks_eq {α : Type} (d : α → Bool) (cs : List (List α)) :
    ∀ acc buf, (∀ x ∈ buf, d x = false) →
      feedChunks d (acc, buf) cs =
        (acc ++ (splitFrames d (buf ++ cs.flatten)).1,
          (splitFrames d (buf ++ cs.flatten)).2) := by
  induction cs with
  | nil =>
    intro acc buf hbuf
    simp [feedChunks, splitFrames_of_noDelim d buf hbuf]
  | cons c cs ih =>
    intro acc buf hbuf
    simp only [feedChunks]
    rw [ih _ _ (splitFrames_buffer_noDelim d (buf ++ c))]
    rw [List.flatten_cons, ← List.append_assoc, splitFrames_append d (buf ++ c) cs.flatten]
    simp [List.append_assoc]

/-- C7: frame splitting is invariant to chunk boundaries — feeding any
chunking of a byte sequence to the splitter yields exactly the records
(and retained trailing buffer) of splitting the whole sequence at once;
in particular the byte string "a\nb\nc" delivered as one chunk, as
["a\n", "b\nc"], or as ["a", "\n", "b", "\n", "c"] yields the record
sequence ["a", "b", "c"]. -/
theorem frame_splitting_chunk_invariant :
    (∀ (α : Type) (d : α → Bool) (chunks : List (List α)),
        runChunks d chunks = splitFrames d chunks.flatten) ∧
    allRecords newlineDelim [[97, 10, 98, 10, 99]] = [[97], [98], [99]] ∧
    allRecords newlineDelim [[97, 10], [98, 10, 99]] = [[97], [98], [99]] ∧
    allRecords newlineDelim [[97], [10], [98], [10], [99]] = [[97], [98], [99]] := by
  refine ⟨fun α d chunks => ?_, by decide, by decide, by decide⟩
  have h := feedChunks_eq d chunks [] [] (by simp)
  simpa [runChunks] using h

/-- C4: TypeMeta envelope decoding — both fields present and equal to the
expected constants succeeds, both absent succeeds, exactly one present
fails naming the absent field, and both present but mismatched fails with
a value-mismatch error citing the found and the expected
apiVersion/kind pairs. -/
theorem typemeta_decode_matrix (expA expK a k : String) :
    typeMetaDeserialize expA expK ⟨some a, some k⟩ =
      (if a = expA ∧ k = expK then Except.ok ()
       else Except.error (DeError.invalidValue (a ++ "/" ++ k) (expA ++ "/" ++ expK))) ∧
    typeMetaDeserialize expA expK ⟨none, none⟩ = Except.ok () ∧
    typeMetaDeserialize expA expK ⟨some a, none⟩ =
      Except.error (DeError.missingField "kind") ∧
    typeMetaDeserialize expA expK ⟨none, some k⟩ =
      Except.error (DeError.missingField "apiVersion") :=
  ⟨rfl, rfl, rfl, rfl⟩

/-- C1: for a single request whose response status is non-2xx, the executor
decodes the buffered body as a Status — on success the call fails with the
structured server error carrying that Status, on decode failure it fails
with the plain HTTP status error carrying only the numeric status. -/
theorem executor_non2xx_classification {T : Type}
    (decodeStatus : List Nat → Except String Status)
    (decodeBody : List Nat → Except String T) (httpstatus : Nat) (body : List Nat)
    (h : isSuccessStatus httpstatus = false) :
    handleResponse decodeStatus decodeBody httpstatus body =
      (match decodeStatus body with
       | Except.ok s => Except.error (Err.apiStatus s)
       | Except.error _ => Except.error (Err.httpStatus httpstatus)) := by
  simp [handleResponse, h]

/-- Witness for C1 at status 404 with an undecodable body. -/
theorem executor_non2xx_witness :
    isSuccessStatus 404 = false ∧
    handleResponse (T := Nat) (fun _ => Except.error "no") (fun _ => Except.error "no")
        404 [] = Except.error (Err.httpStatus 404) :=
  ⟨rfl, executor_non2xx_classification (fun _ => Except.error "no")
    (fun _ => Except.error "no") 404 [] rfl⟩

/-- C6: on a 2xx watch stream, each frame-splitter record is decoded
independently; the first record that fails to decode terminates the whole
event sequence with a DecodeError carrying the watch-line context, and no
record after it is emitted or skipped over. -/
theorem watch_decode_failure_terminates {T : Type} (parse : List Nat → Except String T)
    (good : List (List Nat)) (bad : List Nat) (rest : List (List Nat)) (e : String)
    (hg : ∀ r ∈ good, ∃ t, parse r = Except.ok t) (hb : parse bad = Except.error e) :
    watchEvents parse (good ++ bad :: rest) =
      ((watchEvents parse good).1,
        some (Err.decode ("Unable to parse watch line : " ++ e))) := by
  induction good with
  | nil => simp [watchEvents, streamAndThen, decodeWatchLine, hb]
  | cons g gs ih =>
    obtain ⟨t, ht⟩ := hg g (List.mem_cons_self g gs)
    have ih' := ih (fun r hr => hg r (List.mem_cons_of_mem g hr))
    simp only [watchEvents, List.cons_append, List.append_eq, streamAndThen,
      decodeWatchLine, ht] at ih' ⊢
    rw [ih']

/-- Witness for C6: one good record, one undecodable record, one further
record that is never reached. -/
theorem watch_decode_failure_witness :
    watchEvents (fun l => if l = [48] then Except.ok (0 : Nat) else Except.error "bad")
        ([[48]] ++ [49] :: [[48]]) =
      ([0], some (Err.decode ("Unable to parse watch line : " ++ "bad"))) := by
  have h := watch_decode_failure_terminates
      (fun l => if l = [48] then Except.ok (0 : Nat) else Except.error "bad")
      [[48]] [49] [[48]] "bad"
      (by intro r hr; simp at hr; exact ⟨0, by simp [hr]⟩) (by simp)
  simpa using h

/-- C8: `Client::put` fails fast with the required-attribute error naming
"name" when the submitted object's metadata name is absent, issuing no
network request; when the name is present (and the base URL is
hierarchical) the request is built and issued. -/
theorem put_requires_name (server : Url) (gvr : GroupVersionResource) (meta : ObjectMeta)
    (json : List Nat) (opts : GetOptions) :
    (meta.name = none →
      clientPut server gvr meta json opts = Except.error (Err.requiredAttribute "name") ∧
      requestsIssued (clientPut server gvr meta json opts) = 0) ∧
    (∀ n, meta.name = some n → server.cannotBeABase = false →
      ∃ r, clientPut server gvr meta json opts = Except.ok r ∧
        requestsIssued (clientPut server gvr meta json opts) = 1) := by
  constructor
  · intro h
    simp [clientPut, h, requestsIssued]
  · intro n hn hb
    simp [clientPut, hn, clientUrlGet, hb, requestsIssued]

/-- Witness for C8 on an object with no name. -/
theorem put_requires_name_witness :
    clientPut sampleServer ⟨"", "v1", "pods"⟩ ⟨none, none⟩ [] defaultGetOptions =
      Except.error (Err.requiredAttribute "name") ∧
    requestsIssued
        (clientPut sampleServer ⟨"", "v1", "pods"⟩ ⟨none, none⟩ [] defaultGetOptions) = 0 :=
  (put_requires_name sampleServer ⟨"", "v1", "pods"⟩ ⟨none, none⟩ [] defaultGetOptions).1 rfl

/-- C10: a successfully built update request uses the POST method, a JSON
content-type header, the object's name as the trailing path segment, and
the serialized object as its body. -/
theorem put_is_post_json_named (server : Url) (gvr : GroupVersionResource)
    (meta : ObjectMeta) (json : List Nat) (opts : GetOptions) (n : String)
    (r : RequestModel) (hn : meta.name = some n)
    (h : clientPut server gvr meta json opts = Except.ok r) :
    r.method = "POST" ∧ r.contentType = some "application/json" ∧
    r.url.pathSegments.getLast? = some n ∧ r.body = some json := by
  simp only [clientPut, hn] at h
  cases hu : clientUrlGet server gvr meta.namespace' (some n) opts with
  | error e =>
    rw [hu] at h
    simp at h
  | ok url =>
    rw [hu] at h
    simp only [Except.ok.injEq] at h
    subst h
    refine ⟨rfl, rfl, ?_, rfl⟩
    unfold clientUrlGet at hu
    by_cases hb : server.cannotBeABase <;> simp [hb] at hu
    rw [← hu]
    simp [buildSegments]
    cases meta.namespace' <;> simp [nameSegs, List.getLast?, List.getLast]

/-- Witness for C10 at a concrete pod object. -/
theorem put_is_post_json_named_witness :
    putReq0.method = "POST" ∧ putReq0.contentType = some "application/json" ∧
    putReq0.url.pathSegments.getLast? = some "myname" ∧ putReq0.body = some [123] :=
  put_is_post_json_named sampleServer ⟨"", "v1", "pods"⟩ ⟨some "myns", some "myname"⟩
    [123] defaultGetOptions "myname" putReq0 rfl rfl

theorem countKey_append (k : String) (a b : List (String × String)) :
    countKey k (a ++ b) = countKey k a + countKey k b := by
  simp [countKey, List.filter_append]

theorem countKey_cond_eq (k v : String) (c : Prop) [Decidable c] :
    countKey k (if c then [] else [(k, v)]) = if c then 0 else 1 := by
  by_cases hc : c <;> simp [countKey, hc]

theorem countKey_cond_ne (k w v : String) (c : Prop) [Decidable c] (h : ¬ w = k) :
    countKey k (if c then [] else [(w, v)]) = 0 := by
  by_cases hc : c <;> simp [countKey, hc, h]

/-- C5: a fully-default options value leaves the built URL without any
query string; a non-default value attaches exactly the serde-encoded
query; and within the encoded pairs each field appears exactly once under
its documented wire name when it differs from its default (the pagination
field under `continue`) and not at all otherwise. -/
theorem options_query_encoding (server : Url) (gvr : GroupVersionResource)
    (ns nm : Option String) (g : GetOptions) (l : ListOptions)
    (hb : server.cannotBeABase = false) (hq : server.query = none) :
    (g = defaultGetOptions →
      clientUrlGet server gvr ns nm g =
        Except.ok { server with pathSegments := buildSegments gvr ns nm, query := none }) ∧
    (l = defaultListOptions →
      clientUrlList server gvr ns nm l =
        Except.ok { server with pathSegments := buildSegments gvr ns nm, query := none }) ∧
    (g ≠ defaultGetOptions →
      clientUrlGet server gvr ns nm g =
        Except.ok { server with
                    pathSegments := buildSegments gvr ns nm,
                    query := some (renderQuery g.queryPairs) }) ∧
    (l ≠ defaultListOptions →
      clientUrlList server gvr ns nm l =
        Except.ok { server with
                    pathSegments := buildSegments gvr ns nm,
                    query := some (renderQuery l.queryPairs) }) ∧
    countKey "pretty" g.queryPairs = (if g.pretty = false then 0 else 1) ∧
    countKey "resourceVersion" l.queryPairs = (if l.resourceVersion = "" then 0 else 1) ∧
    countKey "timeoutSeconds" l.queryPairs = (if l.timeoutSeconds = 0 then 0 else 1) ∧
    countKey "watch" l.queryPairs = (if l.watch = false then 0 else 1) ∧
    countKey "pretty" l.queryPairs = (if l.pretty = false then 0 else 1) ∧
    countKey "fieldSelector" l.queryPairs = (if l.fieldSelector = "" then 0 else 1) ∧
    countKey "labelSelector" l.queryPairs = (if l.labelSelector = "" then 0 else 1) ∧
    countKey "includeUninitialized" l.queryPairs =
      (if l.includeUninitialized = false then 0 else 1) ∧
    countKey "limit" l.queryPairs = (if l.limit = 0 then 0 else 1) ∧
    countKey "continue" l.queryPairs = (if l.continu = "" then 0 else 1) := by
  refine ⟨fun h => ?_, fun h => ?_, fun h => ?_, fun h => ?_, ?_, ?_, ?_, ?_, ?_, ?_, ?_,
    ?_, ?_, ?_⟩
  · simp [clientUrlGet, hb, h, hq]
  · simp [clientUrlList, hb, h, hq]
  · simp [clientUrlGet, hb, h]
  · simp [clientUrlList, hb, h]
  all_goals
    simp [GetOptions.queryPairs, ListOptions.queryPairs, countKey_append,
      countKey_cond_eq, countKey_cond_ne]

/-- Witness for C5: the default ListOptions yields no query on the sample
server, and a lone continuation token appears exactly once as `continue`. -/
theorem options_query_encoding_witness :
    clientUrlList sampleServer ⟨"", "v1", "namespaces"⟩ none none defaultListOptions =
      Except.ok { sampleServer with
                  pathSegments := buildSegments ⟨"", "v1", "namespaces"⟩ none none,
                  query := none } ∧
    countKey "continue"
      (ListOptions.queryPairs { defaultListOptions with continu := "tok" }) = 1 := by
  have h1 := options_query_encoding sampleServer ⟨"", "v1", "namespaces"⟩ none none
    defaultGetOptions defaultListOptions rfl rfl
  have h2 := options_query_encoding sampleServer ⟨"", "v1", "namespaces"⟩ none none
    defaultGetOptions { defaultListOptions with continu := "tok" } rfl rfl
  refine ⟨h1.2.1 rfl, ?_⟩
  have := h2.2.2.2.2.2.2.2.2.2.2.2.2.2
  simpa using this

/-- C3: after a fetched page whose continuation cursor is absent the
flattened sequence ends with that page's items and no further request is
issued; after a page whose cursor is present the options' continuation
field is set to the token, the URL query is rebuilt from the updated
options, and exactly the next page is fetched; items are emitted in
server order one page at a time. -/
theorem iter_pagination {T : Type} (server : Nat → PageL T) (k fuel : Nat)
    (url : Url) (opts : ListOptions) :
    ((server k).continu = none →
      iterPages server k (fuel + 1) (some (url, opts)) = [server k] ∧
      iterItems server k (fuel + 1) (some (url, opts)) = (server k).items) ∧
    (∀ c, (server k).continu = some c →
      iterPages server k (fuel + 1) (some (url, opts)) =
        server k ::
          iterPages server (k + 1) fuel
            (some ({ url with
                     query := some (renderQuery
                       ({ opts with continu := c } : ListOptions).queryPairs) },
                   { opts with continu := c }))) ∧
    iterItems server k (fuel + 1) (some (url, opts)) =
      (server k).items ++ iterItems server (k + 1) fuel (iterStep opts url (server k)) := by
  refine ⟨fun h => ?_, fun c h => ?_, ?_⟩
  · constructor <;> simp [iterPages, iterItems, iterStep, h]
  · simp [iterPages, iterStep, h]
  · simp [iterPages, iterItems]

/-- Witness for C3 on the two-page sample server. -/
theorem iter_pagination_witness :
    (pageServer0 1).continu = none ∧
    iterPages pageServer0 1 1 (some (sampleServer, defaultListOptions)) = [pageServer0 1] ∧
    (pageServer0 0).continu = some "t" ∧
    iterPages pageServer0 0 2 (some (sampleServer, defaultListOptions)) =
      pageServer0 0 ::
        iterPages pageServer0 1 1
          (some ({ sampleServer with
                   query := some (renderQuery
                     ({ defaultListOptions with continu := "t" } : ListOptions).queryPairs) },
                 { defaultListOptions with continu := "t" })) :=
  ⟨rfl, ((iter_pagination pageServer0 1 0 sampleServer defaultListOptions).1 rfl).1, rfl,
    (iter_pagination pageServer0 0 1 sampleServer defaultListOptions).2.1 "t" rfl⟩

theorem strData_append (a b : String) : (a ++ b).data = a.data ++ b.data := rfl

theorem slash_data : "/".data = ['/'] := rfl

theorem api_data : "api".data = ['a', 'p', 'i'] := rfl

theorem apis_data : "apis".data = ['a', 'p', 'i', 's'] := rfl

theorem apiSlash_data : "/api/".data = ['/', 'a', 'p', 'i', '/'] := rfl

theorem apisSlash_data : "/apis/".data = ['/', 'a', 'p', 'i', 's', '/'] := rfl

theorem joinSegs_cons (a : String) (t : List String) (ht : t ≠ []) :
    joinSegs (a :: t) = a ++ "/" ++ joinSegs t := by
  cases t with
  | nil => exact absurd rfl ht
  | cons b t' => rfl

theorem tailSegs_ne_nil (ns nm : Option String) (res : String) :
    nsSegs ns ++ res :: nameSegs nm ≠ [] := by
  cases ns <;> simp [nsSegs]

theorem buildSegments_eq_api (gvr : GroupVersionResource) (ns nm : Option String)
    (hg : gvr.group = "") (hv : gvr.version = "v1") :
    buildSegments gvr ns nm =
      "api" :: gvr.version :: (nsSegs ns ++ gvr.resource :: nameSegs nm) := by
  simp [buildSegments, hg, hv]

theorem buildSegments_eq_apis_group (gvr : GroupVersionResource) (ns nm : Option String)
    (hg : gvr.group ≠ "") :
    buildSegments gvr ns nm =
      "apis" :: gvr.group :: gvr.version :: (nsSegs ns ++ gvr.resource :: nameSegs nm) := by
  have hc : ¬ (gvr.group = "" ∧ gvr.version = "v1") := fun h => hg h.1
  simp [buildSegments, hg, hc]

theorem buildSegments_eq_apis_nogroup (gvr : GroupVersionResource) (ns nm : Option String)
    (hg : gvr.group = "") (hv : gvr.version ≠ "v1") :
    buildSegments gvr ns nm =
      "apis" :: gvr.version :: (nsSegs ns ++ gvr.resource :: nameSegs nm) := by
  have hc : ¬ (gvr.group = "" ∧ gvr.version = "v1") := fun h => hv h.2
  simp [buildSegments, hg, hc, hv]

theorem prefix_two (a b : String) (t : List String) (ht : t ≠ []) :
    ("/" ++ a ++ "/" ++ b ++ "/").data <+: ("/" ++ joinSegs (a :: b :: t)).data := by
  refine ⟨(joinSegs t).data, ?_⟩
  rw [joinSegs_cons a _ (by simp), joinSegs_cons b t ht]
  simp [strData_append, slash_data, List.append_assoc]

theorem prefix_three (a b c : String) (t : List String) (ht : t ≠ []) :
    ("/" ++ a ++ "/" ++ b ++ "/" ++ c ++ "/").data <+:
      ("/" ++ joinSegs (a :: b :: c :: t)).data := by
  refine ⟨(joinSegs t).data, ?_⟩
  rw [joinSegs_cons a _ (by simp), joinSegs_cons b _ (by simp), joinSegs_cons c t ht]
  simp [strData_append, slash_data, List.append_assoc]

theorem not_prefix_api_of_apis (v : String) (t : List String) :
    ¬ (("/api/" ++ v ++ "/").data <+: ("/" ++ joinSegs ("apis" :: t)).data) := by
  rintro ⟨u, hu⟩
  cases t with
  | nil =>
    simp only [joinSegs, strData_append, apiSlash_data, apis_data, slash_data,
      List.cons_append, List.append_assoc, List.nil_append, List.cons.injEq] at hu
    simp at hu
  | cons b t' =>
    rw [joinSegs_cons "apis" (b :: t') (by simp)] at hu
    simp only [strData_append, apiSlash_data, apis_data, slash_data,
      List.cons_append, List.append_assoc, List.nil_append, List.cons.injEq] at hu
    simp at hu

/-- C2 (amended): the built URL's path begins with `/api/{version}/` iff
the group is empty and the version is `v1`; when the group is non-empty it
begins with `/apis/{group}/{version}/`; when the group is empty and the
version is not `v1` the group segment is omitted and the path begins with
`/apis/{version}/`. -/
theorem url_path_root (server : Url) (gvr : GroupVersionResource)
    (ns nm : Option String) (g : GetOptions) (l : ListOptions) (u : Url)
    (h : clientUrlGet server gvr ns nm g = Except.ok u ∨
         clientUrlList server gvr ns nm l = Except.ok u) :
    (("/api/" ++ gvr.version ++ "/").data <+: u.path.data ↔
      gvr.group = "" ∧ gvr.version = "v1") ∧
    (gvr.group ≠ "" →
      ("/apis/" ++ gvr.group ++ "/" ++ gvr.version ++ "/").data <+: u.path.data) ∧
    (gvr.group = "" → gvr.version ≠ "v1" →
      ("/apis/" ++ gvr.version ++ "/").data <+: u.path.data) := by
  have hseg : u.pathSegments = buildSegments gvr ns nm := by
    rcases h with h | h
    · unfold clientUrlGet at h
      by_cases hb : server.cannotBeABase <;> simp [hb] at h
      rw [← h]
    · unfold clientUrlList at h
      by_cases hb : server.cannotBeABase <;> simp [hb] at h
      rw [← h]
  have hpath : u.path = "/" ++ joinSegs (buildSegments gvr ns nm) := by
    rw [Url.path, hseg]
  rw [hpath]
  by_cases hg : gvr.group = ""
  · by_cases hv : gvr.version = "v1"
    · rw [buildSegments_eq_api gvr ns nm hg hv]
      refine ⟨⟨fun _ => ⟨hg, hv⟩, fun _ => ?_⟩, fun hne => absurd hg hne,
        fun _ hne => absurd hv hne⟩
      have hpre := prefix_two "api" gvr.version _ (tailSegs_ne_nil ns nm gvr.resource)
      have hd : ("/api/" ++ gvr.version ++ "/").data =
          ("/" ++ "api" ++ "/" ++ gvr.version ++ "/").data := by
        simp [strData_append, apiSlash_data, api_data, slash_data]
      rw [hd]
      exact hpre
    · rw [buildSegments_eq_apis_nogroup gvr ns nm hg hv]
      refine ⟨⟨fun hpre => ?_, fun hc => absurd hc.2 hv⟩, fun hne => absurd hg hne,
        fun _ _ => ?_⟩
      · exact absurd hpre (not_prefix_api_of_apis gvr.version _)
      · have hpre := prefix_two "apis" gvr.version _ (tailSegs_ne_nil ns nm gvr.resource)
        have hd : ("/apis/" ++ gvr.version ++ "/").data =
            ("/" ++ "apis" ++ "/" ++ gvr.version ++ "/").data := by
          simp [strData_append, apisSlash_data, apis_data, slash_data]
        rw [hd]
        exact hpre
  · rw [buildSegments_eq_apis_group gvr ns nm hg]
    refine ⟨⟨fun hpre => ?_, fun hc => absurd hc.1 hg⟩, fun _ => ?_,
      fun hge _ => absurd hge hg⟩
    · exact absurd hpre (not_prefix_api_of_apis gvr.version _)
    · have hpre := prefix_three "apis" gvr.group gvr.version _
        (tailSegs_ne_nil ns nm gvr.resource)
      have hd : ("/apis/" ++ gvr.group ++ "/" ++ gvr.version ++ "/").data =
          ("/" ++ "apis" ++ "/" ++ gvr.group ++ "/" ++ gvr.version ++ "/").data := by
        simp [strData_append, apisSlash_data, apis_data, slash_data]
      rw [hd]
      exact hpre

/-- Counterexample to C2 as stated: for group `""` and version `"v2"` the
built path is `/apis/v2/things`, which does not begin with
`/apis/{group}/{version}/` (that is, with `/apis//v2/`), because the
empty group segment is omitted rather than left empty. -/
theorem url_path_root_counterexample :
    clientUrlGet sampleServer ⟨"", "v2", "things"⟩ none none defaultGetOptions =
      Except.ok { sampleServer with
                  pathSegments := buildSegments ⟨"", "v2", "things"⟩ none none } ∧
    ¬ ((⟨"", "v2", "things"⟩ : GroupVersionResource).group = "" ∧
       (⟨"", "v2", "things"⟩ : GroupVersionResource).version = "v1") ∧
    ¬ (("/apis/" ++ (⟨"", "v2", "things"⟩ : GroupVersionResource).group ++ "/" ++
          (⟨"", "v2", "things"⟩ : GroupVersionResource).version ++ "/").data <+:
        (Url.path { sampleServer with
                    pathSegments := buildSegments ⟨"", "v2", "things"⟩ none none }).data) := by
  refine ⟨rfl, by decide, by decide⟩

/-- Witness for C2 (amended) at the core-v1 pods URL. -/
theorem url_path_root_witness :
    clientUrlGet sampleServer ⟨"", "v1", "pods"⟩ (some "myns") (some "myname")
        defaultGetOptions =
      Except.ok { sampleServer with
                  pathSegments :=
                    buildSegments ⟨"", "v1", "pods"⟩ (some "myns") (some "myname") } ∧
    ("/api/" ++ "v1" ++ "/").data <+:
      (Url.path { sampleServer with
                  pathSegments :=
                    buildSegments ⟨"", "v1", "pods"⟩ (some "myns") (some "myname") }).data := by
  refine ⟨rfl, ?_⟩
  have h := url_path_root sampleServer ⟨"", "v1", "pods"⟩ (some "myns") (some "myname")
    defaultGetOptions defaultListOptions
    { sampleServer with
      pathSegments := buildSegments ⟨"", "v1", "pods"⟩ (some "myns") (some "myname") }
    (Or.inl rfl)
  exact h.1.mpr ⟨rfl, rfl⟩

/-- C9: the URL builder clears every path segment of the configured base
URL before pushing its own — the result is identical no matter what path
prefix the base carried, and its path always starts at the root with an
`api` or `apis` segment. -/
theorem base_path_cleared (server : Url) (p₁ p₂ : List String)
    (gvr : GroupVersionResource) (ns nm : Option String) (g : GetOptions)
    (hb : server.cannotBeABase = false) :
    clientUrlGet { server with pathSegments := p₁ } gvr ns nm g =
      clientUrlGet { server with pathSegments := p₂ } gvr ns nm g ∧
    (∀ u, clientUrlGet { server with pathSegments := p₁ } gvr ns nm g = Except.ok u →
      u.pathSegments.head? = some "api" ∨ u.pathSegments.head? = some "apis") := by
  constructor
  · simp [clientUrlGet, hb]
  · intro u hu
    simp [clientUrlGet, hb] at hu
    by_cases hc : gvr.group = "" ∧ gvr.version = "v1"
    · left
      rw [← hu]
      simp [buildSegments, hc]
    · right
      rw [← hu]
      simp [buildSegments, hc]

/-- Witness for C9: a base URL mounted at `/kube` yields the same request
URL as one mounted at the root. -/
theorem base_path_cleared_witness :
    clientUrlGet { sampleServer with pathSegments := ["kube"] } ⟨"", "v1", "pods"⟩
        none none defaultGetOptions =
      clientUrlGet { sampleServer with pathSegments := [] } ⟨"", "v1", "pods"⟩
        none none defaultGetOptions :=
  (base_path_cleared sampleServer ["kube"] [] ⟨"", "v1", "pods"⟩ none none
    defaultGetOptions rfl).1

end KubernetesRs
